import Mathlib

/-!
Shallow embedding of the token-time-oracle price resolution engine
(`supabase/functions/price/index.ts`) and the backfill job runner
(the schedule edge function).  Timestamps are integers (epoch seconds),
prices are rationals, and the Supabase tables are modelled as lists of
rows; the SQL queries of the source are modelled as filters combined
with first/last-row selection matching the source's ORDER BY ... LIMIT 1.
-/

/-- A row of the `token_prices` table (interface `CachedPrice` in the
source); `date` models the UTC calendar day derived from the timestamp
(the source computes `new Date(ts*1000).toISOString().split('T')[0]`). -/
structure CachedPrice where
  token_address : String
  network : String
  timestamp : ℤ
  price : ℚ
  date : ℤ
deriving DecidableEq, Repr

/-- The response of the price edge function: interface `PriceResponse`
in the source, whose `source` field is the string literal union
`"cache" | "alchemy" | "interpolated"`. -/
structure PriceResponse where
  price : ℚ
  source : String
deriving DecidableEq, Repr

/-- Models JavaScript `parseFloat(x.toFixed(8))`: rounding to 8 decimal
places. -/
def toFixed8 (q : ℚ) : ℚ := (round (q * 100000000) : ℤ) / 100000000

/-- The UTC calendar day index of an epoch-seconds timestamp, modelling
`new Date(ts * 1000).toISOString().split('T')[0]`. -/
def utcDay (t : ℤ) : ℤ := Int.fdiv t 86400

/-- The `interpolatePrice` function of the source, verbatim: the source
computes `beforePrice + (afterPrice - beforePrice) * ((target - before) /
(after - before))` with no validation of the bracket. -/
def interpolatePrice (targetTimestamp beforeTimestamp : ℤ) (beforePrice : ℚ)
    (afterTimestamp : ℤ) (afterPrice : ℚ) : ℚ :=
  beforePrice + (afterPrice - beforePrice) *
    (((targetTimestamp - beforeTimestamp : ℤ) : ℚ) /
      ((afterTimestamp - beforeTimestamp : ℤ) : ℚ))

/-- The row filter common to all three store queries of the price
function: `.eq('token_address', token.toLowerCase()).eq('network', network)`. -/
def matchesKey (token network : String) (r : CachedPrice) : Bool :=
  r.token_address == token.toLower && r.network == network

/-- The tolerance-window test of the cache query:
`.gte('timestamp', timestamp - 3600).lte('timestamp', timestamp + 3600)`. -/
def inWindow (t : ℤ) (r : CachedPrice) : Bool :=
  decide (t - 3600 ≤ r.timestamp) && decide (r.timestamp ≤ t + 3600)

/-- First row of `ORDER BY timestamp ASC LIMIT 1`: the row with the
minimal timestamp (first occurrence wins on equal timestamps). -/
def minByTimestamp : List CachedPrice → Option CachedPrice
  | [] => none
  | r :: rs =>
    match minByTimestamp rs with
    | none => some r
    | some m => some (if m.timestamp < r.timestamp then m else r)

/-- First row of `ORDER BY timestamp DESC LIMIT 1`: the row with the
maximal timestamp (first occurrence wins on equal timestamps). -/
def maxByTimestamp : List CachedPrice → Option CachedPrice
  | [] => none
  | r :: rs =>
    match maxByTimestamp rs with
    | none => some r
    | some m => some (if r.timestamp < m.timestamp then m else r)

/-- The rows matching the cache query of the price function (key match
and within the ±3600 second tolerance window). -/
def cacheCandidates (store : List CachedPrice) (token network : String) (t : ℤ) :
    List CachedPrice :=
  store.filter (fun r => matchesKey token network r && inWindow t r)

/-- The cache lookup of the price function: tolerance-window query,
ascending order, limit 1. -/
def queryNear (store : List CachedPrice) (token network : String) (t : ℤ) :
    Option CachedPrice :=
  minByTimestamp (cacheCandidates store token network t)

/-- The before-bracket lookup: `.lt('timestamp', t)`, descending order,
limit 1. -/
def queryBefore (store : List CachedPrice) (token network : String) (t : ℤ) :
    Option CachedPrice :=
  maxByTimestamp (store.filter (fun r => matchesKey token network r && decide (r.timestamp < t)))

/-- The after-bracket lookup: `.gt('timestamp', t)`, ascending order,
limit 1. -/
def queryAfter (store : List CachedPrice) (token network : String) (t : ℤ) :
    Option CachedPrice :=
  minByTimestamp (store.filter (fun r => matchesKey token network r && decide (t < r.timestamp)))

/-- The row the price function inserts on the fallback path. -/
def mkPriceRow (token network : String) (t : ℤ) (p : ℚ) : CachedPrice :=
  { token_address := token.toLower, network := network, timestamp := t,
    price := p, date := utcDay t }

/-- The quantization the `token_prices.price` column applies on write:
the column is declared DECIMAL(20,8), so Postgres rounds every persisted
price to 8 decimal places (half away from zero; prices in this system
are non-negative, where that agrees with rounding by ⌊x + 1/2⌋). -/
def decimal8 (q : ℚ) : ℚ := (round (q * 100000000) : ℤ) / 100000000

/-- Two rows occupy the same slot of the table's unique index on
(token_address, network, date). -/
def sameSlot (x row : CachedPrice) : Bool :=
  x.token_address == row.token_address && x.network == row.network && x.date == row.date

/-- A single-row insert into `token_prices`: the unique index makes a
conflicting insert a no-op at this level of modelling (the source
ignores the insert result object), and the DECIMAL(20,8) price column
rounds the persisted price to 8 decimal places on write. -/
def insertPrice (store : List CachedPrice) (row : CachedPrice) : List CachedPrice :=
  if store.any (fun x => sameSlot x row) then store
  else store ++ [{ row with price := decimal8 row.price }]

/-- The fallback price `const mockPrice = 1.0 + Math.random() * 0.1` of
the source, with the `Math.random()` draw as the argument. -/
def mockPrice (mockRand : ℚ) : ℚ := 1 + mockRand * (1 / 10)

/-- The price resolution core of the price edge function (the `serve`
body after request validation): cache lookup, then interpolation between
brackets, then the mocked Alchemy fallback.  `mockRand` is the value the
fallback's `Math.random()` call returns in this invocation; the result is
the response paired with the store after the fallback path's insert. -/
def resolve (store : List CachedPrice) (token network : String) (t : ℤ)
    (mockRand : ℚ) : PriceResponse × List CachedPrice :=
  match queryNear store token network t with
  | some cached => ({ price := cached.price, source := "cache" }, store)
  | none =>
    match queryBefore store token network t, queryAfter store token network t with
    | some b, some a =>
      ({ price := toFixed8 (interpolatePrice t b.timestamp b.price a.timestamp a.price),
         source := "interpolated" }, store)
    | _, _ =>
      ({ price := toFixed8 (mockPrice mockRand), source := "alchemy" },
        insertPrice store (mkPriceRow token network t (mockPrice mockRand)))

/-- The `generateDailyTimestamps` function of the schedule edge function:
`for (let ts = startTimestamp; ts <= now; ts += 86400) timestamps.push(ts)`.
The source reads `now` from the clock; here it is an explicit argument. -/
def generateDailyTimestamps (startTimestamp now : ℤ) : List ℤ :=
  if h : startTimestamp ≤ now then
    startTimestamp :: generateDailyTimestamps (startTimestamp + 86400) now
  else []
termination_by (now + 1 - startTimestamp).toNat
decreasing_by simp_wf; omega

/-- The chunking loop of the schedule function: slices of 10 consecutive
timestamps (`for (let i = 0; i < len; i += 10) chunks.push(slice(i, i + 10))`). -/
def makeChunks (l : List ℤ) : List (List ℤ) :=
  if hl : l = [] then [] else l.take 10 :: makeChunks (l.drop 10)
termination_by l.length
decreasing_by simp_wf; simpa [List.length_pos] using hl

/-- A row of the `price_fetch_jobs` table, restricted to the fields the
runner's updates touch; `status` is one of the strings of the table's
CHECK constraint (`pending`, `running`, `completed`, `error`). -/
structure BackfillJob where
  total_days : ℕ
  completed_days : ℕ
  status : String
  error_message : Option String
deriving DecidableEq, Repr

/-- A chunk's `Promise.all` over `fetchPriceFromAlchemy` calls: succeeds
with every (timestamp, price) pair when every fetch succeeds, and rejects
with a failure detail as soon as any fetch fails (the successfully fetched
sibling values are discarded with the rejection). -/
def fetchChunk (fetch : ℤ → Except String ℚ) : List ℤ → Except String (List (ℤ × ℚ))
  | [] => Except.ok []
  | t :: ts =>
    match fetch t, fetchChunk fetch ts with
    | Except.error e, _ => Except.error e
    | Except.ok _, Except.error e => Except.error e
    | Except.ok p, Except.ok rest => Except.ok ((t, p) :: rest)

/-- Whether a multi-row insert of `rows` into `store` violates the
unique index: some row conflicts with the table, or with another row
further along in the same batch. -/
def batchConflict (store : List CachedPrice) : List CachedPrice → Bool
  | [] => false
  | r :: rs =>
    store.any (fun x => sameSlot x r) || rs.any (fun x => sameSlot x r) ||
      batchConflict store rs

/-- The batch insert into `token_prices`: a multi-row INSERT without an
ON CONFLICT clause is atomic, so a uniqueness violation anywhere aborts
the whole statement and writes nothing (the source ignores the returned
error object); otherwise every row is written with its price rounded to
the price column's DECIMAL(20,8) scale. -/
def insertBatch (store : List CachedPrice) (rows : List CachedPrice) : List CachedPrice :=
  if batchConflict store rows then store
  else store ++ rows.map (fun r => { r with price := decimal8 r.price })

/-- The chunk loop of the schedule function's background task.  For each
chunk in order: fetch all prices (via `fetchChunk`), batch-insert them,
add the chunk length to `completedDays`, and update the job record with
`status = completedDays >= totalDays ? 'completed' : 'running'`.  A fetch
failure reaches the surrounding catch, which updates the job to status
`error` with the failure message and stops.  The result is the final
store paired with the list of job records written, in order. -/
def runChunks (fetch : ℤ → Except String ℚ) (token network : String) (totalDays : ℕ) :
    List (List ℤ) → ℕ → List CachedPrice → List CachedPrice × List BackfillJob
  | [], _, store => (store, [])
  | chunk :: rest, completedDays, store =>
    match fetchChunk fetch chunk with
    | Except.error msg =>
      (store, [{ total_days := totalDays, completed_days := completedDays,
                 status := "error", error_message := some msg }])
    | Except.ok prices =>
      let store2 := insertBatch store (prices.map (fun pr => mkPriceRow token network pr.1 pr.2))
      let completed2 := completedDays + chunk.length
      let job2 : BackfillJob :=
        { total_days := totalDays, completed_days := completed2,
          status := if totalDays ≤ completed2 then "completed" else "running",
          error_message := none }
      let rec2 := runChunks fetch token network totalDays rest completed2 store2
      (rec2.1, job2 :: rec2.2)

/-- The whole background execution for an enumerated timestamp list: the
initial job insert (the source inserts the job with `status: 'running'`
and `completed_days: 0`) followed by the chunk loop over `makeChunks`.
Returns the final store and every job record written. -/
def runBackfill (fetch : ℤ → Except String ℚ) (token network : String)
    (store0 : List CachedPrice) (ts : List ℤ) : List CachedPrice × List BackfillJob :=
  let rec2 := runChunks fetch token network ts.length (makeChunks ts) 0 store0
  (rec2.1, { total_days := ts.length, completed_days := 0,
             status := "running", error_message := none } :: rec2.2)

/-- First row of `SELECT date ... ORDER BY date DESC LIMIT 1`. -/
def maxByDay : List CachedPrice → Option CachedPrice
  | [] => none
  | r :: rs =>
    match maxByDay rs with
    | none => some r
    | some m => some (if r.date < m.date then m else r)

/-- The resume-point query of the schedule function: the latest stored
date for (token, network). -/
def queryLatestDay (store : List CachedPrice) (token network : String) : Option ℤ :=
  Option.map CachedPrice.date (maxByDay (store.filter (fun r => matchesKey token network r)))

/-- The start-timestamp determination of the schedule function: resume
from the day after the latest stored date (start-of-day plus 86400
seconds), else start from the token's birthdate as returned by the
external `getTokenBirthdate` lookup. -/
def resumeStart (store : List CachedPrice) (token network : String)
    (birthdate : ℤ) : ℤ :=
  match queryLatestDay store token network with
  | some d => d * 86400 + 86400
  | none => birthdate

/-- The scheduling path of the schedule edge function: determine the
start timestamp, enumerate daily timestamps, and either report no work
(no job record) or create the job record that is persisted before the
background task starts.  Returns the created job (if any) and the
enumerated timestamps. -/
def schedule (store : List CachedPrice) (token network : String)
    (birthdate now : ℤ) : Option BackfillJob × List ℤ :=
  if (generateDailyTimestamps (resumeStart store token network birthdate) now).isEmpty then
    (none, generateDailyTimestamps (resumeStart store token network birthdate) now)
  else
    (some { total_days :=
              (generateDailyTimestamps (resumeStart store token network birthdate) now).length,
            completed_days := 0, status := "running", error_message := none },
      generateDailyTimestamps (resumeStart store token network birthdate) now)

lemma minByTimestamp_eq_none {l : List CachedPrice} :
    minByTimestamp l = none ↔ l = [] := by
  induction l with
  | nil => simp [minByTimestamp]
  | cons r rs ih =>
    simp only [minByTimestamp]
    cases hrs : minByTimestamp rs <;> simp

lemma minByTimestamp_mem {l : List CachedPrice} {m : CachedPrice}
    (h : minByTimestamp l = some m) : m ∈ l := by
  induction l with
  | nil => simp [minByTimestamp] at h
  | cons r rs ih =>
    simp only [minByTimestamp] at h
    cases hrs : minByTimestamp rs with
    | none => rw [hrs] at h; simp at h; simp [h]
    | some m' =>
      rw [hrs] at h
      simp at h
      split_ifs at h with hlt
      · subst h; exact List.mem_cons_of_mem _ (ih hrs)
      · simp [h]

lemma minByTimestamp_le {l : List CachedPrice} :
    ∀ {m : CachedPrice}, minByTimestamp l = some m →
      ∀ x ∈ l, m.timestamp ≤ x.timestamp := by
  induction l with
  | nil => intro m h; simp [minByTimestamp] at h
  | cons r rs ih =>
    intro m h x hx
    simp only [minByTimestamp] at h
    cases hrs : minByTimestamp rs with
    | none =>
      rw [hrs] at h
      simp at h
      have : rs = [] := minByTimestamp_eq_none.mp hrs
      subst this
      rcases List.mem_cons.mp hx with hx | hx
      · subst hx; subst h; exact le_refl _
      · simp at hx
    | some m' =>
      rw [hrs] at h
      simp at h
      split_ifs at h with hlt
      · subst h
        rcases List.mem_cons.mp hx with hx | hx
        · subst hx; exact le_of_lt hlt
        · exact ih hrs x hx
      · subst h
        rcases List.mem_cons.mp hx with hx | hx
        · subst hx; exact le_refl _
        · exact le_trans (not_lt.mp hlt) (ih hrs x hx)

/-- Claim C3 (corrected): the source's `interpolatePrice` performs no
bracket validation at all — there is no `InvalidBracket` check anywhere —
so even when the target does not lie strictly between the brackets it
still returns the numeric value of the linear formula
`p0 + (p1 - p0) * (t - t0) / (t1 - t0)` (an extrapolation). -/
theorem interpolatePrice_no_validation (t t0 t1 : ℤ) (p0 p1 : ℚ)
    (hlt : t0 < t1) (hout : t ≤ t0 ∨ t1 ≤ t) :
    interpolatePrice t t0 p0 t1 p1 =
      p0 + (p1 - p0) * ((t - t0 : ℤ) : ℚ) / ((t1 - t0 : ℤ) : ℚ) := by
  unfold interpolatePrice
  ring

/-- Witness for `interpolatePrice_no_validation` at the concrete invalid
bracket t = 20 outside (0, 10). -/
theorem interpolatePrice_no_validation_witness :
    ((0 : ℤ) < 10 ∧ ((20 : ℤ) ≤ 0 ∨ (10 : ℤ) ≤ 20)) ∧
    interpolatePrice 20 0 1 10 2 =
      1 + (2 - 1) * (((20 : ℤ) - 0 : ℤ) : ℚ) / (((10 : ℤ) - 0 : ℤ) : ℚ) :=
  ⟨⟨by norm_num, Or.inr (by norm_num)⟩,
    interpolatePrice_no_validation 20 0 10 1 2 (by norm_num) (Or.inr (by norm_num))⟩

/-- Counterexample to claim C3 as stated: with the target 20 outside the
bracket (0, 10) the source's interpolation returns the numeric price 3
(linear extrapolation); no `InvalidBracket` failure exists in the code. -/
theorem interpolatePrice_returns_outside_bracket :
    ((10 : ℤ) ≤ 20) ∧ interpolatePrice 20 0 1 10 2 = 3 := by
  constructor
  · norm_num
  · norm_num [interpolatePrice]

/-- Claim C4 (corrected): the source field of every successful resolution
is one of the string literals `"cache"`, `"interpolated"`, `"alchemy"` —
the fallback path labels its responses `"alchemy"`, not `"external"`. -/
theorem resolve_source_values (store : List CachedPrice) (token network : String)
    (t : ℤ) (mockRand : ℚ) :
    (resolve store token network t mockRand).1.source ∈
      (["cache", "interpolated", "alchemy"] : List String) := by
  cases hn : queryNear store token network t with
  | some c => simp [resolve, hn]
  | none =>
    cases hb : queryBefore store token network t with
    | some b =>
      cases ha : queryAfter store token network t with
      | some a => simp [resolve, hn, hb, ha]
      | none => simp [resolve, hn, hb, ha]
    | none =>
      cases ha : queryAfter store token network t with
      | some a => simp [resolve, hn, hb, ha]
      | none => simp [resolve, hn, hb, ha]

/-- Counterexample to claim C4 as stated: on an empty store the fallback
path is taken and the response's source is the string `"alchemy"`, which
is not `"external"`, so the claimed value set does not hold. -/
theorem resolve_external_source_is_alchemy :
    (resolve [] "tok" "net" 1000 0).1.source = "alchemy" ∧
    "alchemy" ≠ "external" ∧
    ("alchemy" : String) ∉ (["cache", "interpolated", "external"] : List String) := by
  refine ⟨?_, by decide, by decide⟩
  norm_num [resolve, queryNear, cacheCandidates, queryBefore, queryAfter,
    minByTimestamp, maxByTimestamp]

/-- Claim C5 (corrected): resolution is deterministic in the store on the
cache and interpolated paths — whenever the first call does not take the
`"alchemy"` fallback, a second call with identical inputs against the
unchanged store returns the same (price, source) response regardless of
the fallback's random draw. -/
theorem resolve_deterministic_off_alchemy_path (store : List CachedPrice)
    (token network : String) (t : ℤ) (r1 r2 : ℚ)
    (h : (resolve store token network t r1).1.source ≠ "alchemy") :
    (resolve store token network t r1).1 = (resolve store token network t r2).1 := by
  cases hn : queryNear store token network t with
  | some c => simp [resolve, hn]
  | none =>
    cases hb : queryBefore store token network t with
    | some b =>
      cases ha : queryAfter store token network t with
      | some a => simp [resolve, hn, hb, ha]
      | none => exact absurd (by simp [resolve, hn, hb, ha]) h
    | none =>
      cases ha : queryAfter store token network t with
      | some a => exact absurd (by simp [resolve, hn, hb, ha]) h
      | none => exact absurd (by simp [resolve, hn, hb, ha]) h

/-- Witness for `resolve_deterministic_off_alchemy_path` on a concrete
cache hit: the response is independent of the random draw. -/
theorem resolve_deterministic_off_alchemy_path_witness :
    (resolve [⟨"tok".toLower, "net", 5, 2, 0⟩] "tok" "net" 5 0).1.source ≠ "alchemy" ∧
    (resolve [⟨"tok".toLower, "net", 5, 2, 0⟩] "tok" "net" 5 0).1 =
      (resolve [⟨"tok".toLower, "net", 5, 2, 0⟩] "tok" "net" 5 1).1 := by
  have hs : (resolve [⟨"tok".toLower, "net", 5, 2, 0⟩] "tok" "net" 5 0).1.source ≠ "alchemy" := by
    norm_num [resolve, queryNear, cacheCandidates, matchesKey, inWindow, minByTimestamp]
    decide
  exact ⟨hs, resolve_deterministic_off_alchemy_path _ _ _ _ _ _ hs⟩

/-- Counterexample to claim C5 as stated: on an empty store the fallback
price is `1.0 + Math.random() * 0.1`, so two calls with identical inputs
against the same (empty, unchanged) store can return different responses
when the random draws differ (here 0 versus 1/2). -/
theorem resolve_external_not_idempotent :
    (resolve [] "tok" "net" 5 0).1 ≠ (resolve [] "tok" "net" 5 (1 / 2)).1 := by
  norm_num [resolve, queryNear, cacheCandidates, queryBefore, queryAfter,
    minByTimestamp, maxByTimestamp, mockPrice, toFixed8, round_eq]

/-- Claim C2 (corrected): when at least one stored point for the
(token, network) key lies within ±3600 seconds of the query timestamp,
the resolver returns, with source `"cache"`, the price of the in-window
point with the smallest timestamp (the first row of the ascending
`ORDER BY timestamp LIMIT 1` query) — not the point closest to the query
timestamp. -/
theorem resolve_cache_min_timestamp (store : List CachedPrice) (token network : String)
    (t : ℤ) (mockRand : ℚ)
    (h : ∃ c ∈ store, (matchesKey token network c && inWindow t c) = true) :
    ∃ m ∈ store, (matchesKey token network m && inWindow t m) = true ∧
      (∀ d ∈ store, (matchesKey token network d && inWindow t d) = true →
        m.timestamp ≤ d.timestamp) ∧
      (resolve store token network t mockRand).1 = ⟨m.price, "cache"⟩ := by
  obtain ⟨c, hc, hcp⟩ := h
  have hne : cacheCandidates store token network t ≠ [] := by
    intro hnil
    have hmemc : c ∈ cacheCandidates store token network t :=
      List.mem_filter.mpr ⟨hc, hcp⟩
    rw [hnil] at hmemc
    simp at hmemc
  obtain ⟨m, hm⟩ : ∃ m, minByTimestamp (cacheCandidates store token network t) = some m := by
    cases hq : minByTimestamp (cacheCandidates store token network t) with
    | none => exact absurd (minByTimestamp_eq_none.mp hq) hne
    | some m => exact ⟨m, rfl⟩
  have hmem := minByTimestamp_mem hm
  have hmf := List.mem_filter.mp hmem
  refine ⟨m, hmf.1, hmf.2, ?_, ?_⟩
  · intro d hd hdp
    exact minByTimestamp_le hm d (List.mem_filter.mpr ⟨hd, hdp⟩)
  · have hq : queryNear store token network t = some m := hm
    simp [resolve, hq]

/-- Witness for `resolve_cache_min_timestamp`: two in-window points at
timestamps 1000 and 1050, query at 1050. -/
theorem resolve_cache_min_timestamp_witness :
    (∃ c ∈ [(⟨"tok".toLower, "net", 1000, 3, 0⟩ : CachedPrice),
            ⟨"tok".toLower, "net", 1050, 7, 0⟩],
      (matchesKey "tok" "net" c && inWindow 1050 c) = true) ∧
    (∃ m ∈ [(⟨"tok".toLower, "net", 1000, 3, 0⟩ : CachedPrice),
            ⟨"tok".toLower, "net", 1050, 7, 0⟩],
      (matchesKey "tok" "net" m && inWindow 1050 m) = true ∧
      (∀ d ∈ [(⟨"tok".toLower, "net", 1000, 3, 0⟩ : CachedPrice),
              ⟨"tok".toLower, "net", 1050, 7, 0⟩],
        (matchesKey "tok" "net" d && inWindow 1050 d) = true →
        m.timestamp ≤ d.timestamp) ∧
      (resolve [⟨"tok".toLower, "net", 1000, 3, 0⟩,
                ⟨"tok".toLower, "net", 1050, 7, 0⟩] "tok" "net" 1050 0).1 =
        ⟨m.price, "cache"⟩) := by
  have hex : ∃ c ∈ [(⟨"tok".toLower, "net", 1000, 3, 0⟩ : CachedPrice),
      ⟨"tok".toLower, "net", 1050, 7, 0⟩],
      (matchesKey "tok" "net" c && inWindow 1050 c) = true := by
    refine ⟨⟨"tok".toLower, "net", 1000, 3, 0⟩, by simp, ?_⟩
    simp [matchesKey, inWindow]
  exact ⟨hex, resolve_cache_min_timestamp _ _ _ _ _ hex⟩

/-- Counterexample to claim C2 as stated: with stored points at
timestamps 1000 (price 3) and 1050 (price 7) and a query at 1050, the
point closest to the query is the one at 1050 (distance 0 < 50), yet the
resolver returns price 3 — the price of the earliest in-window point. -/
theorem resolve_cache_not_closest :
    (resolve [⟨"tok".toLower, "net", 1000, 3, 0⟩,
              ⟨"tok".toLower, "net", 1050, 7, 0⟩] "tok" "net" 1050 0).1 = ⟨3, "cache"⟩ ∧
    |(1050 : ℤ) - 1050| < |(1000 : ℤ) - 1050| ∧ (3 : ℚ) ≠ 7 := by
  refine ⟨?_, by norm_num, by norm_num⟩
  norm_num [resolve, queryNear, cacheCandidates, matchesKey, inWindow, minByTimestamp]

/-- Claim C1 (corrected): on the interpolated path — reached only when no
stored point lies within the ±3600 second tolerance window — the resolver
returns `p0 + (p1 - p0) * (t - t0) / (t1 - t0)` rounded to 8 decimal
places, with source `"interpolated"`, where (t0, p0) and (t1, p1) are the
bracketing rows the before/after queries return. -/
theorem resolve_interpolated_formula (store : List CachedPrice) (token network : String)
    (t : ℤ) (mockRand : ℚ) (b a : CachedPrice)
    (hn : queryNear store token network t = none)
    (hb : queryBefore store token network t = some b)
    (ha : queryAfter store token network t = some a) :
    (resolve store token network t mockRand).1 =
      ⟨toFixed8 (b.price + (a.price - b.price) * ((t - b.timestamp : ℤ) : ℚ) /
        ((a.timestamp - b.timestamp : ℤ) : ℚ)), "interpolated"⟩ := by
  have hform : interpolatePrice t b.timestamp b.price a.timestamp a.price =
      b.price + (a.price - b.price) * ((t - b.timestamp : ℤ) : ℚ) /
        ((a.timestamp - b.timestamp : ℤ) : ℚ) := by
    unfold interpolatePrice
    ring
  simp [resolve, hn, hb, ha, hform]

/-- Witness for `resolve_interpolated_formula`: points (0, 1.0) and
(200000, 2.0) both lie outside the tolerance window of the query at
100000, and the interpolated response is 1.5. -/
theorem resolve_interpolated_formula_witness :
    queryNear [⟨"tok".toLower, "net", 0, 1, 0⟩,
               ⟨"tok".toLower, "net", 200000, 2, 2⟩] "tok" "net" 100000 = none ∧
    (resolve [⟨"tok".toLower, "net", 0, 1, 0⟩,
              ⟨"tok".toLower, "net", 200000, 2, 2⟩] "tok" "net" 100000 0).1 =
      ⟨toFixed8 ((1 : ℚ) + ((2 : ℚ) - 1) * (((100000 : ℤ) - 0 : ℤ) : ℚ) /
        (((200000 : ℤ) - 0 : ℤ) : ℚ)), "interpolated"⟩ ∧
    toFixed8 ((1 : ℚ) + ((2 : ℚ) - 1) * (((100000 : ℤ) - 0 : ℤ) : ℚ) /
        (((200000 : ℤ) - 0 : ℤ) : ℚ)) = 3 / 2 := by
  have hn : queryNear [⟨"tok".toLower, "net", 0, 1, 0⟩,
      ⟨"tok".toLower, "net", 200000, 2, 2⟩] "tok" "net" 100000 = none := by
    simp [queryNear, cacheCandidates, matchesKey, inWindow, minByTimestamp]
  have hb : queryBefore [⟨"tok".toLower, "net", 0, 1, 0⟩,
      ⟨"tok".toLower, "net", 200000, 2, 2⟩] "tok" "net" 100000 =
      some ⟨"tok".toLower, "net", 0, 1, 0⟩ := by
    simp [queryBefore, matchesKey, maxByTimestamp]
  have ha : queryAfter [⟨"tok".toLower, "net", 0, 1, 0⟩,
      ⟨"tok".toLower, "net", 200000, 2, 2⟩] "tok" "net" 100000 =
      some ⟨"tok".toLower, "net", 200000, 2, 2⟩ := by
    simp [queryAfter, matchesKey, minByTimestamp]
  refine ⟨hn, ?_, by norm_num [toFixed8, round_eq]⟩
  have h2 := resolve_interpolated_formula _ "tok" "net" 100000 0 _ _ hn hb ha
  simpa using h2

/-- Counterexample to claim C1 as stated (end-to-end scenario A): with
stored points (1000, 1.0) and (2000, 2.0), the query at 1500 finds both
points inside the ±3600 second tolerance window, so the resolver answers
from the cache with price 1.0 — not price 1.5 with source
`"interpolated"`. -/
theorem scenarioA_returns_cache_not_interpolated :
    (resolve [⟨"tok".toLower, "net", 1000, 1, 0⟩,
              ⟨"tok".toLower, "net", 2000, 2, 0⟩] "tok" "net" 1500 0).1 = ⟨1, "cache"⟩ ∧
    ((⟨1, "cache"⟩ : PriceResponse) ≠ ⟨3 / 2, "interpolated"⟩) := by
  constructor
  · norm_num [resolve, queryNear, cacheCandidates, matchesKey, inWindow, minByTimestamp]
  · intro hcontra
    have := congrArg PriceResponse.price hcontra
    norm_num at this

/-- Appending a fresh matching in-window row to a store whose cache query
is empty makes the cache query return exactly that row. -/
lemma queryNear_append_fresh (store : List CachedPrice) (token network : String)
    (t : ℤ) (row : CachedPrice)
    (hcand : cacheCandidates store token network t = [])
    (hpm : matchesKey token network row = true)
    (hpw : inWindow t row = true) :
    queryNear (store ++ [row]) token network t = some row := by
  have hcand2 : cacheCandidates (store ++ [row]) token network t = [row] := by
    unfold cacheCandidates at hcand ⊢
    rw [List.filter_append, hcand]
    simp [List.filter, hpm, hpw]
  unfold queryNear
  rw [hcand2]
  simp [minByTimestamp]

/-- The JS `toFixed(8)` rounding of the response and the DECIMAL(20,8)
quantization of the price column round the same way. -/
lemma decimal8_eq_toFixed8 (q : ℚ) : decimal8 q = toFixed8 q := rfl

/-- Claim C10 (corrected): the fallback path passes the raw fetched
price to the insert and returns that price rounded to 8 decimal places,
but the `token_prices.price` column is DECIMAL(20,8), so the persisted
value is itself rounded to 8 decimal places on write; the stored price
therefore equals the returned price, and a subsequent in-tolerance call
answers from the cache with exactly the price previously returned.
`hdup` states that no stored row already occupies the (token, network,
date) slot, so the insert is not a uniqueness-conflict no-op. -/
theorem external_path_stores_rounded_price (store : List CachedPrice)
    (token network : String) (t : ℤ) (mockRand mockRand2 : ℚ)
    (hn : queryNear store token network t = none)
    (hbr : queryBefore store token network t = none ∨
      queryAfter store token network t = none)
    (hdup : store.any (fun x =>
      sameSlot x (mkPriceRow token network t (mockPrice mockRand))) = false) :
    ((resolve store token network t mockRand).1 =
      ⟨toFixed8 (mockPrice mockRand), "alchemy"⟩) ∧
    ((resolve store token network t mockRand).2 =
      store ++ [mkPriceRow token network t (decimal8 (mockPrice mockRand))]) ∧
    (decimal8 (mockPrice mockRand) = toFixed8 (mockPrice mockRand)) ∧
    ((resolve (resolve store token network t mockRand).2 token network t mockRand2).1 =
      ⟨toFixed8 (mockPrice mockRand), "cache"⟩) ∧
    ((resolve (resolve store token network t mockRand).2 token network t mockRand2).1.price =
      (resolve store token network t mockRand).1.price) := by
  have hins : insertPrice store (mkPriceRow token network t (mockPrice mockRand)) =
      store ++ [mkPriceRow token network t (decimal8 (mockPrice mockRand))] := by
    have hc : ¬((store.any fun x =>
        sameSlot x (mkPriceRow token network t (mockPrice mockRand))) = true) := by
      rw [hdup]
      simp
    unfold insertPrice
    rw [if_neg hc]
    simp [mkPriceRow]
  have hres : resolve store token network t mockRand =
      (⟨toFixed8 (mockPrice mockRand), "alchemy"⟩,
        insertPrice store (mkPriceRow token network t (mockPrice mockRand))) := by
    rcases hbr with hb | ha
    · cases haq : queryAfter store token network t with
      | none => simp [resolve, hn, hb, haq]
      | some a => simp [resolve, hn, hb, haq]
    · cases hbq : queryBefore store token network t with
      | none => simp [resolve, hn, hbq, ha]
      | some b => simp [resolve, hn, hbq, ha]
  have hcand : cacheCandidates store token network t = [] :=
    minByTimestamp_eq_none.mp hn
  have hpm : matchesKey token network
      (mkPriceRow token network t (decimal8 (mockPrice mockRand))) = true := by
    simp [matchesKey, mkPriceRow]
  have hpw : inWindow t (mkPriceRow token network t (decimal8 (mockPrice mockRand))) = true := by
    have hw1 : t - 3600 ≤ t := by omega
    have hw2 : t ≤ t + 3600 := by omega
    simp [inWindow, mkPriceRow, hw1, hw2]
  have hq2 := queryNear_append_fresh store token network t
    (mkPriceRow token network t (decimal8 (mockPrice mockRand))) hcand hpm hpw
  have h1 : (resolve store token network t mockRand).1 =
      ⟨toFixed8 (mockPrice mockRand), "alchemy"⟩ := by rw [hres]
  have h2 : (resolve store token network t mockRand).2 =
      store ++ [mkPriceRow token network t (decimal8 (mockPrice mockRand))] := by
    rw [hres]
    exact hins
  have h3 : (resolve (resolve store token network t mockRand).2 token network t mockRand2).1 =
      ⟨toFixed8 (mockPrice mockRand), "cache"⟩ := by
    rw [h2]
    simp only [resolve]
    rw [hq2]
    simp [mkPriceRow, decimal8_eq_toFixed8]
  refine ⟨h1, h2, decimal8_eq_toFixed8 (mockPrice mockRand), h3, ?_⟩
  rw [h1, h3]

/-- Witness for `external_path_stores_rounded_price`: empty store and
random draw 1/3, a case where rounding does change the value (the raw
price 31/30 is not 8-decimal representable), yet the stored price, the
returned price, and the follow-up cache-hit price all coincide at the
rounded value. -/
theorem external_path_stores_rounded_price_witness :
    queryNear [] "tok" "net" 0 = none ∧
    toFixed8 (mockPrice (1 / 3)) ≠ mockPrice (1 / 3) ∧
    (resolve [] "tok" "net" 0 (1 / 3)).2 =
      [] ++ [mkPriceRow "tok" "net" 0 (decimal8 (mockPrice (1 / 3)))] ∧
    (resolve (resolve [] "tok" "net" 0 (1 / 3)).2 "tok" "net" 0 0).1.price =
      (resolve [] "tok" "net" 0 (1 / 3)).1.price := by
  have h := external_path_stores_rounded_price [] "tok" "net" 0 (1 / 3) 0
    rfl (Or.inl rfl) rfl
  have hr : toFixed8 (mockPrice (1 / 3)) ≠ mockPrice (1 / 3) := by
    norm_num [mockPrice, toFixed8, round_eq]
  exact ⟨rfl, hr, h.2.1, h.2.2.2.2⟩

/-- Counterexample to claim C10 as stated: with an empty store and
random draw 1/3 the rounding does change the value, yet the persisted
row carries the rounded price (the DECIMAL(20,8) column quantizes on
write), and the subsequent in-tolerance cache hit returns exactly the
price previously returned — not a different, unrounded one. -/
theorem stored_price_rounded_matches_returned :
    toFixed8 (mockPrice (1 / 3)) ≠ mockPrice (1 / 3) ∧
    (resolve [] "tok" "net" 0 (1 / 3)).2 =
      [mkPriceRow "tok" "net" 0 (decimal8 (mockPrice (1 / 3)))] ∧
    (resolve (resolve [] "tok" "net" 0 (1 / 3)).2 "tok" "net" 0 0).1.price =
      (resolve [] "tok" "net" 0 (1 / 3)).1.price := by
  have hone : resolve [] "tok" "net" 0 (1 / 3) =
      (⟨toFixed8 (mockPrice (1 / 3)), "alchemy"⟩,
        [mkPriceRow "tok" "net" 0 (decimal8 (mockPrice (1 / 3)))]) := by
    simp [resolve, queryNear, cacheCandidates, queryBefore, queryAfter,
      minByTimestamp, maxByTimestamp, insertPrice, sameSlot, mkPriceRow]
  refine ⟨by norm_num [mockPrice, toFixed8, round_eq], by rw [hone], ?_⟩
  rw [hone]
  simp [resolve, queryNear, cacheCandidates, matchesKey, inWindow,
    minByTimestamp, mkPriceRow, decimal8_eq_toFixed8]

lemma generateDailyTimestamps_mem_bounds (startTimestamp now : ℤ) :
    ∀ t ∈ generateDailyTimestamps startTimestamp now,
      startTimestamp ≤ t ∧ t ≤ now := by
  induction startTimestamp, now using generateDailyTimestamps.induct with
  | case1 s n h ih =>
    intro t ht
    rw [generateDailyTimestamps, dif_pos h] at ht
    rcases List.mem_cons.mp ht with rfl | ht
    · exact ⟨le_refl _, h⟩
    · have hb := ih t ht
      exact ⟨by omega, hb.2⟩
  | case2 s n h =>
    intro t ht
    rw [generateDailyTimestamps, dif_neg h] at ht
    simp at ht

lemma generateDailyTimestamps_head (startTimestamp now : ℤ)
    (h : startTimestamp ≤ now) :
    (generateDailyTimestamps startTimestamp now).head? = some startTimestamp := by
  rw [generateDailyTimestamps, dif_pos h]
  rfl

lemma generateDailyTimestamps_chain (startTimestamp now : ℤ) :
    List.Chain' (fun x y => y = x + 86400)
      (generateDailyTimestamps startTimestamp now) := by
  induction startTimestamp, now using generateDailyTimestamps.induct with
  | case1 s n h ih =>
    rw [generateDailyTimestamps, dif_pos h]
    rw [List.chain'_cons']
    refine ⟨?_, ih⟩
    intro y hy
    by_cases h2 : s + 86400 ≤ n
    · rw [generateDailyTimestamps_head _ _ h2] at hy
      simp at hy
      omega
    · rw [generateDailyTimestamps, dif_neg h2] at hy
      simp at hy
  | case2 s n h =>
    rw [generateDailyTimestamps, dif_neg h]
    simp

lemma generateDailyTimestamps_pairwise (startTimestamp now : ℤ) :
    (generateDailyTimestamps startTimestamp now).Pairwise (fun x y => x < y) := by
  induction startTimestamp, now using generateDailyTimestamps.induct with
  | case1 s n h ih =>
    rw [generateDailyTimestamps, dif_pos h]
    rw [List.pairwise_cons]
    refine ⟨?_, ih⟩
    intro y hy
    have hb := generateDailyTimestamps_mem_bounds (s + 86400) n y hy
    omega
  | case2 s n h =>
    rw [generateDailyTimestamps, dif_neg h]
    simp

/-- Claim C9 (confirmed): for a start timestamp not after `now`, the
enumeration is non-empty, its first element is the start timestamp, each
successive element is exactly 86400 seconds after the previous one, the
sequence is strictly increasing, and every element (the last one in
particular) is at most `now`. -/
theorem generateDailyTimestamps_correct (startTimestamp now : ℤ)
    (h : startTimestamp ≤ now) :
    (generateDailyTimestamps startTimestamp now).head? = some startTimestamp ∧
    List.Chain' (fun x y => y = x + 86400)
      (generateDailyTimestamps startTimestamp now) ∧
    (generateDailyTimestamps startTimestamp now).Pairwise (fun x y => x < y) ∧
    (∀ t ∈ generateDailyTimestamps startTimestamp now, t ≤ now) :=
  ⟨generateDailyTimestamps_head startTimestamp now h,
    generateDailyTimestamps_chain startTimestamp now,
    generateDailyTimestamps_pairwise startTimestamp now,
    fun t ht => (generateDailyTimestamps_mem_bounds startTimestamp now t ht).2⟩

/-- Witness for `generateDailyTimestamps_correct` at start 0, now 100000
(the enumeration is the two-element list [0, 86400]). -/
theorem generateDailyTimestamps_correct_witness :
    ((0 : ℤ) ≤ 100000) ∧
    (generateDailyTimestamps 0 100000).head? = some 0 ∧
    List.Chain' (fun x y => y = x + 86400) (generateDailyTimestamps 0 100000) ∧
    (generateDailyTimestamps 0 100000).Pairwise (fun x y => x < y) ∧
    (∀ t ∈ generateDailyTimestamps 0 100000, t ≤ 100000) := by
  have h := generateDailyTimestamps_correct 0 100000 (by norm_num)
  exact ⟨by norm_num, h.1, h.2.1, h.2.2.1, h.2.2.2⟩

lemma makeChunks_sum (l : List ℤ) :
    ((makeChunks l).map List.length).sum = l.length := by
  induction l using makeChunks.induct with
  | case1 => simp [makeChunks]
  | case2 l hl ih =>
    rw [makeChunks, dif_neg hl]
    simp only [List.map_cons, List.sum_cons, ih, List.length_take, List.length_drop]
    omega

lemma makeChunks_ne_nil (l : List ℤ) :
    ∀ c ∈ makeChunks l, c ≠ [] := by
  induction l using makeChunks.induct with
  | case1 => simp [makeChunks]
  | case2 l hl ih =>
    rw [makeChunks, dif_neg hl]
    intro c hc
    rcases List.mem_cons.mp hc with rfl | hc
    · have hp : 0 < l.length := List.length_pos.mpr hl
      have hq : 0 < (l.take 10).length := by
        simp [List.length_take]
        omega
      exact List.ne_nil_of_length_pos hq
    · exact ih c hc

lemma runChunks_invariant (fetch : ℤ → Except String ℚ) (token network : String)
    (totalDays : ℕ) :
    ∀ (chunks : List (List ℤ)) (completedDays : ℕ) (store : List CachedPrice),
      completedDays + (chunks.map List.length).sum = totalDays →
      (∀ c ∈ chunks, c ≠ []) →
      ∀ job ∈ (runChunks fetch token network totalDays chunks completedDays store).2,
        job.completed_days ≤ job.total_days ∧
        (job.status = "completed" ↔ job.completed_days = job.total_days) := by
  intro chunks
  induction chunks with
  | nil =>
    intro completedDays store hsum hne job hj
    simp [runChunks] at hj
  | cons chunk rest ih =>
    intro completedDays store hsum hne job hj
    have hcl : 0 < chunk.length :=
      List.length_pos.mpr (hne chunk (List.mem_cons_self _ _))
    simp only [List.map_cons, List.sum_cons] at hsum
    rw [runChunks] at hj
    cases hfc : fetchChunk fetch chunk with
    | error msg =>
      rw [hfc] at hj
      simp at hj
      subst hj
      constructor
      · show completedDays ≤ totalDays
        omega
      · show ("error" : String) = "completed" ↔ completedDays = totalDays
        exact iff_of_false (by decide) (by omega)
    | ok prices =>
      rw [hfc] at hj
      simp only [List.mem_cons] at hj
      rcases hj with rfl | hj
      · constructor
        · show completedDays + chunk.length ≤ totalDays
          omega
        · show (if totalDays ≤ completedDays + chunk.length then "completed" else "running")
            = "completed" ↔ completedDays + chunk.length = totalDays
          by_cases hdone : totalDays ≤ completedDays + chunk.length
          · rw [if_pos hdone]
            exact iff_of_true rfl (by omega)
          · rw [if_neg hdone]
            exact iff_of_false (by decide) (by omega)
      · exact ih (completedDays + chunk.length) _
          (by omega) (fun c hc => hne c (List.mem_cons_of_mem _ hc)) job hj

/-- Claim C6 (confirmed): every job record the runner writes — the
initial insert and each per-chunk update — satisfies
`completed_days <= total_days`, and its status is `"completed"` exactly
when `completed_days = total_days` (the source writes
`status: completedDays >= total ? 'completed' : 'running'`, and the
error update leaves `completed_days` strictly below the total). -/
theorem backfill_job_invariant (fetch : ℤ → Except String ℚ)
    (token network : String) (store0 : List CachedPrice) (ts : List ℤ)
    (hts : ts ≠ []) (job : BackfillJob)
    (hj : job ∈ (runBackfill fetch token network store0 ts).2) :
    job.completed_days ≤ job.total_days ∧
    (job.status = "completed" ↔ job.completed_days = job.total_days) := by
  rw [runBackfill] at hj
  simp only [List.mem_cons] at hj
  rcases hj with rfl | hj
  · refine ⟨Nat.zero_le _, ?_⟩
    show ("running" : String) = "completed" ↔ 0 = ts.length
    exact iff_of_false (by decide) (fun h0 => hts (List.length_eq_zero.mp h0.symm))
  · exact runChunks_invariant fetch token network ts.length (makeChunks ts) 0 store0
      (by simpa using makeChunks_sum ts) (makeChunks_ne_nil ts) job hj

/-- Witness for `backfill_job_invariant`: a one-day backfill whose single
fetch succeeds; the final update is `completed_days = total_days = 1`
with status `"completed"`. -/
theorem backfill_job_invariant_witness :
    (([0] : List ℤ) ≠ []) ∧
    ((⟨1, 1, "completed", none⟩ : BackfillJob) ∈
      (runBackfill (fun _ => Except.ok 1) "tok" "net" [] [0]).2) ∧
    ((1 : ℕ) ≤ 1 ∧ ("completed" = "completed" ↔ (1 : ℕ) = 1)) := by
  have hmc : makeChunks [(0 : ℤ)] = [[0]] := by simp [makeChunks]
  have hmem : (⟨1, 1, "completed", none⟩ : BackfillJob) ∈
      (runBackfill (fun _ => Except.ok 1) "tok" "net" [] [0]).2 := by
    simp [runBackfill, hmc, runChunks, fetchChunk, insertBatch, insertPrice, mkPriceRow]
  exact ⟨by simp, hmem,
    backfill_job_invariant (fun _ => Except.ok 1) "tok" "net" [] [0] (by simp) _ hmem⟩

lemma fetchChunk_error_of_mem (fetch : ℤ → Except String ℚ) :
    ∀ (chunk : List ℤ) (t : ℤ), t ∈ chunk → ∀ e, fetch t = Except.error e →
      ∃ msg, fetchChunk fetch chunk = Except.error msg := by
  intro chunk
  induction chunk with
  | nil =>
    intro t ht
    simp at ht
  | cons t0 ts ih =>
    intro t ht e he
    rcases List.mem_cons.mp ht with rfl | ht
    · exact ⟨e, by simp [fetchChunk, he]⟩
    · obtain ⟨msg, hmsg⟩ := ih t ht e he
      cases hf0 : fetch t0 with
      | error e0 => exact ⟨e0, by simp [fetchChunk, hf0]⟩
      | ok p0 => exact ⟨msg, by simp [fetchChunk, hf0, hmsg]⟩

/-- Claim C7 (corrected): when any per-timestamp fetch of a chunk fails,
the runner records status `"error"` with the failure detail and stops —
and the store is left exactly as it was before the chunk: because the
chunk's writes happen only after `Promise.all` succeeds, the prices of
sibling timestamps whose fetches succeeded are discarded, not written. -/
theorem chunk_fetch_failure_aborts_without_sibling_writes
    (fetch : ℤ → Except String ℚ) (token network : String) (totalDays : ℕ)
    (chunk : List ℤ) (rest : List (List ℤ)) (completedDays : ℕ)
    (store : List CachedPrice) (t : ℤ) (e : String)
    (ht : t ∈ chunk) (he : fetch t = Except.error e) :
    ∃ msg, runChunks fetch token network totalDays (chunk :: rest) completedDays store =
      (store, [{ total_days := totalDays, completed_days := completedDays,
                 status := "error", error_message := some msg }]) := by
  obtain ⟨msg, hmsg⟩ := fetchChunk_error_of_mem fetch chunk t ht e he
  refine ⟨msg, ?_⟩
  rw [runChunks, hmsg]

/-- Witness for `chunk_fetch_failure_aborts_without_sibling_writes`: a
two-day chunk whose second fetch fails; the runner stops with an error
record and the store stays empty. -/
theorem chunk_fetch_failure_witness :
    ((86400 : ℤ) ∈ ([0, 86400] : List ℤ)) ∧
    (∃ msg, runChunks (fun s => if s = 0 then Except.ok (1 : ℚ) else Except.error "boom")
        "tok" "net" 2 [[0, 86400]] 0 [] =
      ([], [{ total_days := 2, completed_days := 0,
              status := "error", error_message := some msg }])) :=
  ⟨by simp,
    chunk_fetch_failure_aborts_without_sibling_writes
      (fun s => if s = 0 then Except.ok (1 : ℚ) else Except.error "boom")
      "tok" "net" 2 [0, 86400] [] 0 [] 86400 "boom" (by simp) (by norm_num)⟩

/-- Counterexample to claim C7 as stated: in a chunk holding timestamps
0 and 86400 where the fetch at 0 succeeds (price 1) and the fetch at
86400 fails, the whole run writes nothing at all to the store — the
successfully fetched sibling price for timestamp 0 is NOT written — while
the job ends in the error state. -/
theorem sibling_success_discarded_on_chunk_failure :
    ((fun s => if s = 0 then Except.ok (1 : ℚ) else Except.error "boom") 0
        = Except.ok 1) ∧
    (runBackfill (fun s => if s = 0 then Except.ok (1 : ℚ) else Except.error "boom")
        "tok" "net" [] [0, 86400]).1 = [] ∧
    (runBackfill (fun s => if s = 0 then Except.ok (1 : ℚ) else Except.error "boom")
        "tok" "net" [] [0, 86400]).2 =
      [⟨2, 0, "running", none⟩, ⟨2, 0, "error", some "boom"⟩] := by
  have hmc : makeChunks [(0 : ℤ), 86400] = [[0, 86400]] := by simp [makeChunks]
  have hfc : fetchChunk (fun s => if s = 0 then Except.ok (1 : ℚ) else Except.error "boom")
      [0, 86400] = Except.error "boom" := by simp [fetchChunk]
  refine ⟨by simp, ?_, ?_⟩ <;> simp [runBackfill, hmc, runChunks, hfc]

/-- Claim C8 (corrected): whenever the daily-timestamp enumeration is
non-empty, the job record created and persisted before execution hands
off has `total_days` equal to the enumeration length and
`completed_days = 0`, but its status is `"running"` — the source inserts
the job with `status: 'running'` directly, never writing the `pending`
state the schema's CHECK constraint offers. -/
theorem schedule_job_initial_record (store : List CachedPrice)
    (token network : String) (birthdate now : ℤ)
    (h : (schedule store token network birthdate now).2 ≠ []) :
    (schedule store token network birthdate now).1 =
      some { total_days := (schedule store token network birthdate now).2.length,
             completed_days := 0, status := "running", error_message := none } := by
  by_cases hts : (generateDailyTimestamps (resumeStart store token network birthdate) now).isEmpty
  · rw [schedule, if_pos hts] at h
    exact absurd (List.isEmpty_iff.mp hts) h
  · rw [schedule, if_neg hts] at h ⊢

/-- Witness for `schedule_job_initial_record`: empty store, birthdate 0,
now 86400, so the enumeration is [0, 86400] and the created job has
total_days 2, completed_days 0, status running. -/
theorem schedule_job_initial_record_witness :
    ((schedule [] "tok" "net" 0 86400).2 ≠ []) ∧
    ((schedule [] "tok" "net" 0 86400).1 =
      some { total_days := (schedule [] "tok" "net" 0 86400).2.length,
             completed_days := 0, status := "running", error_message := none }) := by
  have hg : generateDailyTimestamps (resumeStart [] "tok" "net" 0) 86400 = [0, 86400] := by
    simp [resumeStart, queryLatestDay, maxByDay, generateDailyTimestamps]
  have h : (schedule [] "tok" "net" 0 86400).2 ≠ [] := by
    simp [schedule, hg]
  exact ⟨h, schedule_job_initial_record [] "tok" "net" 0 86400 h⟩

/-- Counterexample to claim C8 as stated: scheduling over an empty store
with birthdate 0 at now 0 enumerates the single day [0] and persists the
job with status `"running"`, not the claimed `"pending"`. -/
theorem schedule_job_status_running_not_pending :
    (schedule [] "tok" "net" 0 0).1 =
      some ⟨1, 0, "running", none⟩ ∧ ("running" : String) ≠ "pending" := by
  constructor
  · have hg : generateDailyTimestamps (resumeStart [] "tok" "net" 0) 0 = [0] := by
      simp [resumeStart, queryLatestDay, maxByDay, generateDailyTimestamps]
    simp [schedule, hg]
  · decide
